import Mathlib

/-!
Shallow embedding of the footy-ai watch/alert engine
(`src/plugins/footy/index.ts` and `src/plugins/footy/services/bwaps-api.ts`).

Numbers are modelled as rationals (`ℚ`), JavaScript `Map`s as association
lists in insertion order, and the asynchronous fetch of a probability
snapshot as a function `String → Option MatchProbs` (`none` models a
rejected promise caught by the surrounding `try`/`catch`).
-/

namespace Footy

/-- The `'up' | 'down' | 'any'` direction literal of a watch. -/
inductive Direction where
  | up
  | down
  | any
deriving DecidableEq, Repr

/-- One entry of the `watchlist` map:
`{ eventKey: string; thresholdPct?: number; direction: 'up'|'down'|'any' }`. -/
structure Watch where
  eventKey : String
  thresholdPct : Option ℚ
  direction : Direction
deriving DecidableEq, Repr

/-- The data pushed onto `pendingWatchAlerts` by `maybeQueueAlert`
(the formatted string's semantic content). -/
structure AlertRecord where
  eventKey : String
  homeTeam : String
  awayTeam : String
  prev : ℚ
  next : ℚ
deriving DecidableEq, Repr

/-- The record returned by `bwapsApiService.getMatchProbabilities`. -/
structure MatchProbs where
  homeTeam : String
  awayTeam : String
  homeWinProb : ℚ
  drawProb : ℚ
  awayWinProb : ℚ
  liquidity : ℚ
  volume : ℚ
  sourceCount : ℚ
  asOf : String
deriving DecidableEq, Repr

/-- Embedding of `maybeQueueAlert` (src/unnamed/part_001, lines 754-771):
computes the delta in percentage points, the effective threshold
(`thresholdPct ?? 3`), the direction gate, and pushes one alert record
onto the pending queue when the gate passes and `absDelta >= threshold`. -/
def maybeQueueAlert (eventKey homeTeam awayTeam : String) (prev next : ℚ)
    (thresholdPct : Option ℚ) (direction : Direction)
    (pending : List AlertRecord) : List AlertRecord :=
  let deltaPctPoints := (next - prev) * 100
  let absDelta := |deltaPctPoints|
  let threshold := thresholdPct.getD 3
  let directionPass :=
    direction == Direction.any ||
    (direction == Direction.up && decide (deltaPctPoints > 0)) ||
    (direction == Direction.down && decide (deltaPctPoints < 0))
  if directionPass && decide (absDelta ≥ threshold) then
    pending ++ [⟨eventKey, homeTeam, awayTeam, prev, next⟩]
  else
    pending

/-- JS `Map.set` on an association list: replaces the value in place when
the key is present (insertion order preserved), appends otherwise. -/
def mapSet (m : List (String × ℚ)) (k : String) (v : ℚ) : List (String × ℚ) :=
  if m.any (fun p => p.1 == k) then
    m.map (fun p => if p.1 = k then (k, v) else p)
  else
    m ++ [(k, v)]

/-- `Map.set` on the watchlist (keyed by `eventKey`). -/
def watchlistSet (m : List Watch) (w : Watch) : List Watch :=
  if m.any (fun x => x.eventKey == w.eventKey) then
    m.map (fun x => if x.eventKey = w.eventKey then w else x)
  else
    m ++ [w]

/-- The module-level mutable state of the watch engine:
`watchlist`, `lastHomeProbByEventKey` and `pendingWatchAlerts`. -/
structure WatchState where
  watchlist : List Watch
  lastHomeProb : List (String × ℚ)
  pendingWatchAlerts : List AlertRecord
deriving DecidableEq, Repr

/-- The body of the per-watch loop of `pollWatchedEvents`
(src/unnamed/part_001, lines 776-797): on fetch success, evaluate the
movement detector against the previous observation when one exists, then
set the baseline to the fetched value; on fetch failure (`none`, the
caught exception) the state is unchanged. -/
def processWatch (fetch : String → Option MatchProbs) (s : WatchState)
    (w : Watch) : WatchState :=
  match fetch w.eventKey with
  | none => s
  | some probs =>
    let pending :=
      match s.lastHomeProb.lookup w.eventKey with
      | some prev =>
        maybeQueueAlert w.eventKey probs.homeTeam probs.awayTeam prev
          probs.homeWinProb w.thresholdPct w.direction s.pendingWatchAlerts
      | none => s.pendingWatchAlerts
    { s with
      pendingWatchAlerts := pending
      lastHomeProb := mapSet s.lastHomeProb w.eventKey probs.homeWinProb }

/-- One tick of the poller over an explicit watch list (the loop
`for (const watch of watchlist.values())`). -/
def pollList (fetch : String → Option MatchProbs) (s : WatchState)
    (ws : List Watch) : WatchState :=
  ws.foldl (processWatch fetch) s

/-- Embedding of `pollWatchedEvents`: iterates the registered watches. -/
def pollWatchedEvents (fetch : String → Option MatchProbs)
    (s : WatchState) : WatchState :=
  pollList fetch s s.watchlist

/-- Embedding of `pendingWatchAlerts.splice(0, maxCount)` used by the
list-watches handler: returns the removed entries and the remaining
queue. -/
def spliceDrain (q : List AlertRecord) (n : Nat) :
    List AlertRecord × List AlertRecord :=
  (q.take n, q.drop n)

/-- The state mutation of `unwatchMatchAction` once an event key is
resolved (src/unnamed/part_001, lines 879-901): `watchlist.delete(key)`
returning whether an entry existed, plus
`lastHomeProbByEventKey.delete(key)`. -/
def unwatchByKey (s : WatchState) (k : String) : Bool × WatchState :=
  (s.watchlist.any (fun w => w.eventKey == k),
   { s with
     watchlist := s.watchlist.filter (fun w => !(w.eventKey == k))
     lastHomeProb := s.lastHomeProb.filter (fun p => !(p.1 == k)) })

/-- The state mutation of `watchMatchAction` once the key, threshold and
direction are parsed (src/unnamed/part_001, lines 843-875):
`watchlist.set(key, ...)`, then a best-effort baseline fetch whose
failure is swallowed. -/
def addWatch (s : WatchState) (k : String) (thresholdPct : Option ℚ)
    (direction : Direction) (baselineFetch : Option MatchProbs) : WatchState :=
  let s1 := { s with
    watchlist := watchlistSet s.watchlist ⟨k, thresholdPct, direction⟩ }
  match baselineFetch with
  | some probs =>
    { s1 with lastHomeProb := mapSet s1.lastHomeProb k probs.homeWinProb }
  | none => s1

/-! ### Free-text parsing (`extractEventKey`, `findLeaseFromText`,
the threshold token of `watchMatchAction`) -/

/-- JS `\w` character class: `[A-Za-z0-9_]`. -/
def isWordChar (c : Char) : Bool :=
  c.isAlphanum || c == '_'

/-- The identifier character class `[a-zA-Z0-9_:\-.]` of both regexes in
`extractEventKey`. -/
def isKeyChar (c : Char) : Bool :=
  c.isAlphanum || c == '_' || c == ':' || c == '-' || c == '.'

/-- JS `\s` on the characters that occur in chat text. -/
def jsIsSpace (c : Char) : Bool :=
  c == ' ' || c == '\t' || c == '\n' || c == '\r'

/-- Matcher for `/eventKey\s*[:=]?\s*([a-zA-Z0-9_:\-.]+)/i` anchored at the
start of `cs`; returns the capture group. The greedy `[:=]?` branch is
tried first, falling back to skipping it, mirroring regex backtracking. -/
def p1At (cs : List Char) : Option (List Char) :=
  let l8 := cs.take 8
  if l8.length = 8 && (l8.map Char.toLower == "eventkey".toList) then
    let rest1 := (cs.drop 8).dropWhile jsIsSpace
    let greedy : Option (List Char) :=
      match rest1 with
      | c :: tl =>
        if c == ':' || c == '=' then
          let key := (tl.dropWhile jsIsSpace).takeWhile isKeyChar
          if key.isEmpty then none else some key
        else none
      | [] => none
    match greedy with
    | some k => some k
    | none =>
      let key := rest1.takeWhile isKeyChar
      if key.isEmpty then none else some key
  else none

/-- Leftmost-match scan of the first `extractEventKey` regex. -/
def scanP1 : List Char → Option (List Char)
  | [] => none
  | c :: tl =>
    match p1At (c :: tl) with
    | some k => some k
    | none => scanP1 tl

/-- `\b` at the position after consuming `k` characters of `run`
(`after` is what follows the maximal identifier run). -/
def p2BoundaryAt (run after : List Char) (k : Nat) : Bool :=
  let lastIsWord :=
    match run.get? (k - 1) with
    | some c => isWordChar c
    | none => false
  let nextIsWord :=
    match run.get? k with
    | some c => isWordChar c
    | none =>
      match after with
      | c :: _ => isWordChar c
      | [] => false
  lastIsWord != nextIsWord

/-- Backtracking on the greedy `[a-zA-Z0-9_:\-.]+` of the second regex:
the largest `k ∈ [1, run.length]` whose end position is a word boundary. -/
def p2FindK (run after : List Char) : Nat → Option Nat
  | 0 => none
  | k + 1 =>
    if p2BoundaryAt run after (k + 1) then some (k + 1)
    else p2FindK run after k

/-- Matcher for `(ev_[a-zA-Z0-9_:\-.]+)\b` anchored at the start of `cs`
(the leading `\b` is checked by the caller). -/
def p2At (cs : List Char) : Option (List Char) :=
  match cs with
  | c1 :: c2 :: c3 :: rest =>
    if c1.toLower == 'e' && c2.toLower == 'v' && c3 == '_' then
      let run := rest.takeWhile isKeyChar
      let after := rest.drop run.length
      match p2FindK run after run.length with
      | some k => some (c1 :: c2 :: c3 :: run.take k)
      | none => none
    else none
  | _ => none

/-- Leftmost-match scan of `/\b(ev_[a-zA-Z0-9_:\-.]+)\b/i`, tracking the
previous character for the leading word boundary. -/
def scanP2 : Option Char → List Char → Option (List Char)
  | _, [] => none
  | prev, c :: tl =>
    let boundaryOk :=
      match prev with
      | none => true
      | some p => !(isWordChar p)
    match (if boundaryOk then p2At (c :: tl) else none) with
    | some k => some k
    | none => scanP2 (some c) tl

/-- Embedding of `extractEventKey` (src/unnamed/part_001, lines 20-23):
the first regex wins when it matches anywhere, else the second. -/
def extractEventKey (text : String) : Option String :=
  match scanP1 text.toList with
  | some k => some (String.mk k)
  | none => (scanP2 none text.toList).map String.mk

/-- A row of the candidate listing. `eventKey` is optional: the declared
`BwapsLease` shape carries only `leaseId`, and the code reads
`lease.eventKey || lease.leaseId`. -/
structure BwapsLease where
  leaseId : String
  homeTeam : String
  awayTeam : String
  eventKey : Option String
deriving DecidableEq, Repr

/-- `sub` occurs as a prefix of `cs`. -/
def isPre : List Char → List Char → Bool
  | [], _ => true
  | _ :: _, [] => false
  | a :: as, b :: bs => a == b && isPre as bs

/-- `content.includes(word)`: `sub` occurs as a contiguous substring. -/
def hasSub : List Char → List Char → Bool
  | [], sub => sub.isEmpty
  | c :: tl, sub => isPre sub (c :: tl) || hasSub tl sub

/-- JS `split(' ')` on a character list (consecutive separators yield
empty words, as in JavaScript). -/
def splitSpaceAux : List Char → List Char → List (List Char)
  | [], acc => [acc.reverse]
  | c :: tl, acc =>
    if c = ' ' then acc.reverse :: splitSpaceAux tl []
    else splitSpaceAux tl (c :: acc)

/-- The per-team test of `findLeaseFromText`: some word of the
lower-cased team name longer than 3 characters occurs in the lower-cased
text (`content` is already lower-cased). -/
def teamWordMatch (content : List Char) (team : String) : Bool :=
  (splitSpaceAux (team.toList.map Char.toLower) []).any
    (fun w => w.length > 3 && hasSub content w)

/-- Embedding of `findLeaseFromText` (src/unnamed/part_001, lines 25-45):
explicit identifier lookup first (falling through when no candidate
matches it), then first-match fuzzy team matching. -/
def findLeaseFromText (leases : List BwapsLease) (text : String) :
    Option BwapsLease :=
  let content := text.toList.map Char.toLower
  let fuzzy := leases.find? (fun lease =>
    teamWordMatch content lease.homeTeam &&
    teamWordMatch content lease.awayTeam)
  match extractEventKey text with
  | some k =>
    match leases.find? (fun l => l.eventKey == some k || l.leaseId == k) with
    | some l => some l
    | none => fuzzy
  | none => fuzzy

/-- The tail `\s?%` of the threshold regex, anchored at `rest`. -/
def pctTail (rest : List Char) : Bool :=
  match rest with
  | '%' :: _ => true
  | c :: '%' :: _ => jsIsSpace c
  | _ => false

/-- Backtracking on the greedy `\d+` of the optional fraction: the largest
`k ∈ [1, digs.length]` such that `\s?%` matches after `k` fraction
digits; returns the capture including the integer digits `ds`. -/
def pctFracK (ds digs r1 : List Char) : Nat → Option (List Char)
  | 0 => none
  | k + 1 =>
    if pctTail (r1.drop (k + 1)) then some (ds ++ '.' :: digs.take (k + 1))
    else pctFracK ds digs r1 k

/-- After the integer digits `ds` of `(\d{1,2}(?:\.\d+)?)\s?%`: the greedy
fraction branch first, then the branch without a fraction. -/
def pctAfterDigits (ds rest : List Char) : Option (List Char) :=
  let fracBranch :=
    match rest with
    | '.' :: r1 =>
      let digs := r1.takeWhile (fun c => c.isDigit)
      pctFracK ds digs r1 digs.length
    | _ => none
  match fracBranch with
  | some cap => some cap
  | none => if pctTail rest then some ds else none

/-- Matcher for `/(\d{1,2}(?:\.\d+)?)\s?%/` anchored at the start of `cs`:
two digits greedily, backtracking to one. -/
def pctAt (cs : List Char) : Option (List Char) :=
  match cs with
  | d1 :: tl =>
    if d1.isDigit then
      let two :=
        match tl with
        | d2 :: rest => if d2.isDigit then pctAfterDigits [d1, d2] rest else none
        | [] => none
      match two with
      | some cap => some cap
      | none => pctAfterDigits [d1] tl
    else none
  | [] => none

/-- Leftmost-match scan of the threshold regex. -/
def scanPct : List Char → Option (List Char)
  | [] => none
  | c :: tl =>
    match pctAt (c :: tl) with
    | some cap => some cap
    | none => scanPct tl

/-- Digit run to a natural number. -/
def digitsToNat (ds : List Char) : Nat :=
  ds.foldl (fun n c => 10 * n + (c.toNat - '0'.toNat)) 0

/-- JS `Number` on a captured decimal literal `digits['.' digits]`. -/
def decToRat (cap : List Char) : ℚ :=
  let intPart := cap.takeWhile (fun c => c != '.')
  match cap.drop intPart.length with
  | [] => (digitsToNat intPart : ℚ)
  | _ :: frac =>
    (digitsToNat intPart : ℚ) + (digitsToNat frac : ℚ) / ((10 : ℚ) ^ frac.length)

/-- The threshold parsing of `watchMatchAction`:
`text.match(/(\d{1,2}(?:\.\d+)?)\s?%/)` then `Number(match[1])`,
`undefined` when the token is absent. -/
def parseThresholdPct (text : String) : Option ℚ :=
  (scanPct text.toList).map decToRat

/-! ### Snapshot client wrapper (`bwaps-api.ts`) -/

/-- The `pmf` of a `BwapsSnapshot`: parallel outcome and probability
arrays. -/
structure BwapsProbability where
  outcomes : List String
  probs : List ℚ
deriving DecidableEq, Repr

/-- `qualitySignals` of a `BwapsSnapshot`. -/
structure BwapsQualitySignals where
  liquidity : ℚ
  volume : ℚ
  overround : ℚ
  sourceCount : ℚ
deriving DecidableEq, Repr

/-- A `BwapsSnapshot`. -/
structure BwapsSnapshot where
  pmf : BwapsProbability
  asOf : String
  qualitySignals : BwapsQualitySignals
deriving DecidableEq, Repr

/-- The parts of a `BwapsIngestResponse` read by
`getMatchProbabilities` (`canonicalEvent.homeTeam.name` and
`canonicalEvent.awayTeam.name` flattened to the name strings). -/
structure BwapsIngestResponse where
  eventKey : String
  homeTeamName : String
  awayTeamName : String
  snapshot : BwapsSnapshot
deriving DecidableEq, Repr

/-- The axis read of `getMatchProbabilities`:
`idx = pmf.outcomes.indexOf(axis); idx >= 0 ? pmf.probs[idx] : 0`, with
`outcomes.indexOf` as `findIdx?` and the array read `pmf.probs[idx]`
modelled as `getD idx 0` (faithful whenever `probs` is at least as long
as `outcomes`). -/
def axisProb (pmf : BwapsProbability) (axis : String) : ℚ :=
  match pmf.outcomes.findIdx? (fun o => o == axis) with
  | some i => pmf.probs.getD i 0
  | none => 0

/-- Embedding of `getMatchProbabilities`
(src/src/plugins/footy/services/bwaps-api.ts, lines 219-250), applied to
the ingest response. -/
def getMatchProbabilities (data : BwapsIngestResponse) : MatchProbs :=
  let pmf := data.snapshot.pmf
  let signals := data.snapshot.qualitySignals
  { homeTeam := data.homeTeamName
    awayTeam := data.awayTeamName
    homeWinProb := axisProb pmf "HOME"
    drawProb := axisProb pmf "DRAW"
    awayWinProb := axisProb pmf "AWAY"
    liquidity := signals.liquidity
    volume := signals.volume
    sourceCount := signals.sourceCount
    asOf := data.snapshot.asOf }

/-! ### Helper lemmas -/

/-- With direction `any` the detector appends one alert exactly when the
absolute delta in percentage points reaches the effective threshold. -/
theorem maybeQueueAlert_any_length (k h a : String) (p0 p1 : ℚ)
    (th : Option ℚ) (pending : List AlertRecord) :
    (maybeQueueAlert k h a p0 p1 th Direction.any pending).length
      = pending.length + 1 ↔ |100 * (p1 - p0)| ≥ th.getD 3 := by
  have hc : (100 : ℚ) * (p1 - p0) = (p1 - p0) * 100 := mul_comm _ _
  by_cases hcond : |(p1 - p0) * 100| ≥ th.getD 3
  · simp [maybeQueueAlert, hcond, hc]
  · simp [maybeQueueAlert, hcond, hc]

theorem lookup_map_set (m : List (String × ℚ)) (k : String) (v : ℚ)
    (h : m.any (fun p => p.1 == k) = true) :
    (m.map (fun p => if p.1 = k then (k, v) else p)).lookup k = some v := by
  induction m with
  | nil => simp at h
  | cons p tl ih =>
    by_cases hp : p.1 = k
    · rw [List.map_cons, if_pos hp]
      simp [List.lookup]
    · have hb : (p.1 == k) = false := beq_eq_false_iff_ne.mpr hp
      have hb' : (k == p.1) = false :=
        beq_eq_false_iff_ne.mpr (fun hh => hp hh.symm)
      simp only [List.any_cons, hb, Bool.false_or] at h
      rw [List.map_cons, if_neg hp]
      simpa [List.lookup, hb'] using ih h

theorem lookup_append_single (m : List (String × ℚ)) (k : String) (v : ℚ)
    (h : m.any (fun p => p.1 == k) = false) :
    (m ++ [(k, v)]).lookup k = some v := by
  induction m with
  | nil => simp [List.lookup]
  | cons p tl ih =>
    simp only [List.any_cons, Bool.or_eq_false_iff] at h
    have hb' : (k == p.1) = false := by
      have hp : p.1 ≠ k := by
        intro hh
        simp [hh] at h
      exact beq_eq_false_iff_ne.mpr (fun hh => hp hh.symm)
    simpa [List.lookup, hb'] using ih h.2

/-- `Map.set` followed by `Map.get` yields the value just written. -/
theorem lookup_mapSet_self (m : List (String × ℚ)) (k : String) (v : ℚ) :
    (mapSet m k v).lookup k = some v := by
  unfold mapSet
  by_cases h : m.any (fun p => p.1 == k) = true
  · simpa [h] using lookup_map_set m k v h
  · have h' : m.any (fun p => p.1 == k) = false := by
      simp only [Bool.not_eq_true] at h
      exact h
    simpa [h'] using lookup_append_single m k v h'

theorem lookup_filter_ne (m : List (String × ℚ)) (k : String) :
    (m.filter (fun p => !(p.1 == k))).lookup k = none := by
  induction m with
  | nil => simp [List.lookup]
  | cons p tl ih =>
    by_cases hp : p.1 = k
    · have hb : (p.1 == k) = true := beq_iff_eq.mpr hp
      simpa [List.filter_cons, hb] using ih
    · have hb : (p.1 == k) = false := beq_eq_false_iff_ne.mpr hp
      have hb' : (k == p.1) = false :=
        beq_eq_false_iff_ne.mpr (fun hh => hp hh.symm)
      simpa [List.filter_cons, hb, List.lookup, hb'] using ih

/-- A successful fetch with no previous observation leaves the pending
queue untouched and records the fetched value as the baseline. -/
theorem processWatch_no_prev (fetch : String → Option MatchProbs)
    (s : WatchState) (w : Watch) (probs : MatchProbs)
    (hfetch : fetch w.eventKey = some probs)
    (hprev : s.lastHomeProb.lookup w.eventKey = none) :
    (processWatch fetch s w).pendingWatchAlerts = s.pendingWatchAlerts ∧
    (processWatch fetch s w).lastHomeProb.lookup w.eventKey
      = some probs.homeWinProb := by
  unfold processWatch
  rw [hfetch]
  exact ⟨by simp [hprev], by simp [lookup_mapSet_self]⟩

/-- A successful fetch always rewrites the baseline to the fetched
home-win probability. -/
theorem processWatch_set_baseline (fetch : String → Option MatchProbs)
    (s : WatchState) (w : Watch) (probs : MatchProbs)
    (hfetch : fetch w.eventKey = some probs) :
    (processWatch fetch s w).lastHomeProb.lookup w.eventKey
      = some probs.homeWinProb := by
  unfold processWatch
  rw [hfetch]
  simp [lookup_mapSet_self]

/-- With a previous observation, a successful fetch runs the movement
detector against exactly that observation. -/
theorem processWatch_alert_step (fetch : String → Option MatchProbs)
    (s : WatchState) (w : Watch) (probs : MatchProbs) (prev : ℚ)
    (hfetch : fetch w.eventKey = some probs)
    (hprev : s.lastHomeProb.lookup w.eventKey = some prev) :
    (processWatch fetch s w).pendingWatchAlerts =
      maybeQueueAlert w.eventKey probs.homeTeam probs.awayTeam prev
        probs.homeWinProb w.thresholdPct w.direction s.pendingWatchAlerts := by
  unfold processWatch
  rw [hfetch]
  simp [hprev]

/-! ### Claims -/

/-- C1: for every watch with direction `Any` and every pair of consecutive
observations `p0 → p1`, `maybeQueueAlert` queues exactly one alert if and
only if `|100*(p1 - p0)|` reaches the watch's configured threshold, the
default `3` standing in when the threshold is omitted. -/
theorem maybeQueueAlert_any_fires_iff_threshold (k h a : String)
    (p0 p1 : ℚ) (th : Option ℚ) (pending : List AlertRecord) :
    (maybeQueueAlert k h a p0 p1 th Direction.any pending).length
      = pending.length + 1 ↔ |100 * (p1 - p0)| ≥ th.getD 3 :=
  maybeQueueAlert_any_length k h a p0 p1 th pending

/-- C2: a successful fetch for a key with no previous observed
probability queues no alert — whatever the threshold, direction and
fetched value — and records the fetched home-win probability as the
baseline. -/
theorem processWatch_first_observation (fetch : String → Option MatchProbs)
    (s : WatchState) (w : Watch) (probs : MatchProbs)
    (hfetch : fetch w.eventKey = some probs)
    (hprev : s.lastHomeProb.lookup w.eventKey = none) :
    (processWatch fetch s w).pendingWatchAlerts = s.pendingWatchAlerts ∧
    (processWatch fetch s w).lastHomeProb.lookup w.eventKey
      = some probs.homeWinProb :=
  processWatch_no_prev fetch s w probs hfetch hprev

/-- C3: a watch configured `Down` never queues an alert when the
probability strictly rose, a watch configured `Up` never queues one when
it strictly fell, and `Any` gates only on the magnitude of the move. -/
theorem maybeQueueAlert_direction_gate (k h a : String) (prev next : ℚ)
    (th : Option ℚ) (pending : List AlertRecord) :
    (next > prev →
      maybeQueueAlert k h a prev next th Direction.down pending = pending) ∧
    (next < prev →
      maybeQueueAlert k h a prev next th Direction.up pending = pending) ∧
    ((maybeQueueAlert k h a prev next th Direction.any pending).length
        = pending.length + 1 ↔ |100 * (next - prev)| ≥ th.getD 3) := by
  refine ⟨?_, ?_, maybeQueueAlert_any_length k h a prev next th pending⟩
  · intro hgt
    have hd : ¬((next - prev) * 100 < 0) := by nlinarith
    simp [maybeQueueAlert, hd]
  · intro hlt
    have hd : ¬((next - prev) * 100 > 0) := by nlinarith
    simp [maybeQueueAlert, hd]

theorem maybeQueueAlert_direction_gate_witness :
    maybeQueueAlert "ev_1" "H" "A" (1/2) (3/4) none Direction.down [] = [] ∧
    maybeQueueAlert "ev_1" "H" "A" (3/4) (1/2) none Direction.up [] = [] :=
  ⟨(maybeQueueAlert_direction_gate "ev_1" "H" "A" (1/2) (3/4) none []).1
      (by norm_num),
   (maybeQueueAlert_direction_gate "ev_1" "H" "A" (3/4) (1/2) none []).2.1
      (by norm_num)⟩

/-- C4: after every successful fetch the stored baseline equals the newly
fetched home-win probability, alert or not; hence a second tick's
detector call compares against the first tick's observation only. -/
theorem processWatch_baseline_unconditional
    (fetch fetch2 : String → Option MatchProbs) (s : WatchState) (w : Watch)
    (probs probs2 : MatchProbs)
    (hfetch : fetch w.eventKey = some probs) :
    (processWatch fetch s w).lastHomeProb.lookup w.eventKey
      = some probs.homeWinProb ∧
    (fetch2 w.eventKey = some probs2 →
      (processWatch fetch2 (processWatch fetch s w) w).pendingWatchAlerts =
        maybeQueueAlert w.eventKey probs2.homeTeam probs2.awayTeam
          probs.homeWinProb probs2.homeWinProb w.thresholdPct w.direction
          (processWatch fetch s w).pendingWatchAlerts) := by
  have hbase := processWatch_set_baseline fetch s w probs hfetch
  exact ⟨hbase, fun h2 =>
    processWatch_alert_step fetch2 (processWatch fetch s w) w probs2
      probs.homeWinProb h2 hbase⟩

/-- Sample snapshot used to instantiate the watch-engine theorems. -/
def sampleProbs : MatchProbs :=
  { homeTeam := "Arsenal", awayTeam := "Tottenham", homeWinProb := 1/2,
    drawProb := 1/4, awayWinProb := 1/4, liquidity := 0, volume := 0,
    sourceCount := 0, asOf := "2026-01-01" }

/-- A later snapshot of the same event (home-win probability 0.56). -/
def sampleProbs2 : MatchProbs :=
  { sampleProbs with homeWinProb := 14/25 }

/-- A snapshot client that succeeds only for `ev_1`. -/
def sampleFetch : String → Option MatchProbs :=
  fun k => if k = "ev_1" then some sampleProbs else none

/-- A second tick's snapshot client for `ev_1`. -/
def sampleFetch2 : String → Option MatchProbs :=
  fun k => if k = "ev_1" then some sampleProbs2 else none

/-- The engine state at process start. -/
def emptyState : WatchState :=
  { watchlist := [], lastHomeProb := [], pendingWatchAlerts := [] }

/-- A watch on `ev_1` with a 5-point threshold. -/
def sampleWatch : Watch :=
  { eventKey := "ev_1", thresholdPct := some 5, direction := Direction.any }

/-- A watch whose fetches fail. -/
def badWatch : Watch :=
  { eventKey := "ev_bad", thresholdPct := none, direction := Direction.any }

theorem processWatch_first_observation_witness :
    (processWatch sampleFetch emptyState sampleWatch).pendingWatchAlerts
      = emptyState.pendingWatchAlerts ∧
    (processWatch sampleFetch emptyState sampleWatch).lastHomeProb.lookup
      sampleWatch.eventKey = some sampleProbs.homeWinProb :=
  processWatch_first_observation sampleFetch emptyState sampleWatch sampleProbs
    rfl rfl

theorem processWatch_baseline_unconditional_witness :
    (processWatch sampleFetch emptyState sampleWatch).lastHomeProb.lookup
      sampleWatch.eventKey = some sampleProbs.homeWinProb ∧
    (processWatch sampleFetch2 (processWatch sampleFetch emptyState sampleWatch)
        sampleWatch).pendingWatchAlerts =
      maybeQueueAlert sampleWatch.eventKey sampleProbs2.homeTeam
        sampleProbs2.awayTeam sampleProbs.homeWinProb sampleProbs2.homeWinProb
        sampleWatch.thresholdPct sampleWatch.direction
        (processWatch sampleFetch emptyState sampleWatch).pendingWatchAlerts :=
  let t := processWatch_baseline_unconditional sampleFetch sampleFetch2
    emptyState sampleWatch sampleProbs sampleProbs2 rfl
  ⟨t.1, t.2 rfl⟩

/-- C8: a failed fetch for one watch leaves the tick's processing of the
remaining watches exactly as if the failing watch were skipped. -/
theorem pollList_partial_failure_isolation (fetch : String → Option MatchProbs)
    (s : WatchState) (pre post : List Watch) (wf : Watch)
    (h : fetch wf.eventKey = none) :
    pollList fetch s (pre ++ wf :: post) = pollList fetch s (pre ++ post) := by
  unfold pollList
  rw [List.foldl_append, List.foldl_append, List.foldl_cons]
  have hskip : processWatch fetch (pre.foldl (processWatch fetch) s) wf
      = pre.foldl (processWatch fetch) s := by
    unfold processWatch
    rw [h]
  rw [hskip]

theorem pollList_partial_failure_isolation_witness :
    pollList sampleFetch emptyState ([] ++ badWatch :: [sampleWatch])
      = pollList sampleFetch emptyState ([] ++ [sampleWatch]) :=
  pollList_partial_failure_isolation sampleFetch emptyState [] [sampleWatch]
    badWatch rfl

/-- C6: the unwatch mutation reports whether a watch entry existed for
the key, removes the watch entry and the observed-probability baseline,
and a re-add of the same key followed by a fetch behaves as a fresh
first observation: no alert, new baseline. -/
theorem unwatch_removes_watch_and_baseline (s : WatchState) (k : String) :
    ((unwatchByKey s k).1 = true ↔ ∃ w ∈ s.watchlist, w.eventKey = k) ∧
    (unwatchByKey s k).2.watchlist.find? (fun w => w.eventKey == k) = none ∧
    (unwatchByKey s k).2.lastHomeProb.lookup k = none ∧
    (∀ (th : Option ℚ) (dir : Direction) (fetch : String → Option MatchProbs)
        (probs : MatchProbs), fetch k = some probs →
      (processWatch fetch (addWatch (unwatchByKey s k).2 k th dir none)
          ⟨k, th, dir⟩).pendingWatchAlerts
        = (addWatch (unwatchByKey s k).2 k th dir none).pendingWatchAlerts ∧
      (processWatch fetch (addWatch (unwatchByKey s k).2 k th dir none)
          ⟨k, th, dir⟩).lastHomeProb.lookup k = some probs.homeWinProb) := by
  refine ⟨?_, ?_, ?_, ?_⟩
  · simp [unwatchByKey, List.any_eq_true, beq_iff_eq]
  · refine List.find?_eq_none.mpr ?_
    intro w hw
    have hmem := List.mem_filter.mp hw
    simpa using hmem.2
  · exact lookup_filter_ne s.lastHomeProb k
  · intro th dir fetch probs hfetch
    have hprev : (addWatch (unwatchByKey s k).2 k th dir
        none).lastHomeProb.lookup k = none :=
      lookup_filter_ne s.lastHomeProb k
    exact processWatch_no_prev fetch _ ⟨k, th, dir⟩ probs hfetch hprev

/-- A state with one active watch on `ev_1` and a recorded baseline. -/
def watchedState : WatchState :=
  { watchlist := [⟨"ev_1", some 5, Direction.any⟩],
    lastHomeProb := [("ev_1", 1/2)], pendingWatchAlerts := [] }

theorem unwatch_removes_watch_and_baseline_witness :
    (unwatchByKey watchedState "ev_1").1 = true ∧
    (unwatchByKey watchedState "ev_1").2.watchlist.find?
      (fun w => w.eventKey == "ev_1") = none ∧
    (unwatchByKey watchedState "ev_1").2.lastHomeProb.lookup "ev_1" = none ∧
    ((processWatch sampleFetch2 (addWatch (unwatchByKey watchedState "ev_1").2
        "ev_1" (some 5) Direction.any none)
        ⟨"ev_1", some 5, Direction.any⟩).pendingWatchAlerts
      = (addWatch (unwatchByKey watchedState "ev_1").2 "ev_1" (some 5)
          Direction.any none).pendingWatchAlerts ∧
    (processWatch sampleFetch2 (addWatch (unwatchByKey watchedState "ev_1").2
        "ev_1" (some 5) Direction.any none)
        ⟨"ev_1", some 5, Direction.any⟩).lastHomeProb.lookup "ev_1"
      = some sampleProbs2.homeWinProb) :=
  let t := unwatch_removes_watch_and_baseline watchedState "ev_1"
  ⟨t.1.mpr ⟨⟨"ev_1", some 5, Direction.any⟩, by decide, rfl⟩, t.2.1, t.2.2.1,
   t.2.2.2 (some 5) Direction.any sampleFetch2 sampleProbs2 rfl⟩

/-- C7: draining the alert queue with bound 5 removes exactly
`min 5 (length q)` entries, the oldest first in FIFO order, and two
successive drains return disjoint consecutive blocks of the original
queue. -/
theorem spliceDrain_five_fifo (q : List AlertRecord) :
    (spliceDrain q 5).1 = q.take 5 ∧
    (spliceDrain q 5).1.length = min 5 q.length ∧
    (spliceDrain q 5).2 = q.drop 5 ∧
    (spliceDrain q 5).1 ++ (spliceDrain q 5).2 = q ∧
    (spliceDrain (spliceDrain q 5).2 5).1 = (q.drop 5).take 5 ∧
    (spliceDrain q 5).1 ++ ((spliceDrain (spliceDrain q 5).2 5).1
      ++ (spliceDrain (spliceDrain q 5).2 5).2) = q := by
  refine ⟨rfl, List.length_take 5 q, rfl, List.take_append_drop 5 q, rfl, ?_⟩
  show q.take 5 ++ ((q.drop 5).take 5 ++ (q.drop 5).drop 5) = q
  rw [List.take_append_drop, List.take_append_drop]

/-- C5: an explicit identifier that matches a candidate resolves to that
candidate regardless of what fuzzy team matching would pick; with no
explicit identifier and no candidate passing the dual-substring test the
resolution returns `none`. -/
theorem findLeaseFromText_explicit_precedence_and_notfound
    (leases : List BwapsLease) (text : String) :
    (∀ (k : String) (l0 : BwapsLease), extractEventKey text = some k →
      leases.find? (fun l => l.eventKey == some k || l.leaseId == k)
        = some l0 →
      findLeaseFromText leases text = some l0) ∧
    (extractEventKey text = none →
      (∀ l ∈ leases,
        ¬(teamWordMatch (text.toList.map Char.toLower) l.homeTeam = true ∧
          teamWordMatch (text.toList.map Char.toLower) l.awayTeam = true)) →
      findLeaseFromText leases text = none) := by
  constructor
  · intro k l0 h1 h2
    simp only [findLeaseFromText, h1, h2]
  · intro h1 hall
    simp only [findLeaseFromText, h1]
    refine List.find?_eq_none.mpr ?_
    intro l hl hcontra
    exact hall l hl ⟨((Bool.and_eq_true _ _).mp hcontra).1,
      ((Bool.and_eq_true _ _).mp hcontra).2⟩

/-- A candidate whose team names fuzzy-match the witness text. -/
def leaseA : BwapsLease :=
  { leaseId := "lease1", homeTeam := "Arsenal FC",
    awayTeam := "Tottenham Hotspur", eventKey := some "ev_1" }

/-- A second candidate carrying the explicitly named event key. -/
def leaseB : BwapsLease :=
  { leaseId := "lease2", homeTeam := "Chelsea FC",
    awayTeam := "Liverpool FC", eventKey := some "ev_2" }

theorem findLeaseFromText_explicit_precedence_and_notfound_witness :
    findLeaseFromText [leaseA, leaseB]
      "watch eventKey ev_2 arsenal vs tottenham" = some leaseB ∧
    findLeaseFromText [leaseA, leaseB] "no identifier here" = none :=
  ⟨(findLeaseFromText_explicit_precedence_and_notfound [leaseA, leaseB]
      "watch eventKey ev_2 arsenal vs tottenham").1 "ev_2" leaseB
      (by decide) (by decide),
   (findLeaseFromText_explicit_precedence_and_notfound [leaseA, leaseB]
      "no identifier here").2 (by decide) (by decide)⟩

/-- C10: an explicit threshold of `0` (as parsed from a `0%` token) is
kept rather than replaced by the default, so a direction-`Any` watch
alerts on every evaluation, even an unchanged probability. -/
theorem threshold_zero_not_defaulted (k h a : String) (prev next : ℚ)
    (pending : List AlertRecord) :
    parseThresholdPct "watch eventKey ev_1 0%" = some 0 ∧
    (maybeQueueAlert k h a prev next (some 0) Direction.any pending).length
      = pending.length + 1 :=
  ⟨by decide,
   (maybeQueueAlert_any_length k h a prev next (some 0) pending).mpr
     (abs_nonneg _)⟩

theorem getD_range (l : List ℚ) (h : ∀ p ∈ l, 0 ≤ p ∧ p ≤ 1) (i : Nat) :
    0 ≤ l.getD i 0 ∧ l.getD i 0 ≤ 1 := by
  by_cases hi : i < l.length
  · rw [List.getD_eq_getElem l 0 hi]
    exact h _ (List.getElem_mem hi)
  · rw [List.getD_eq_default l 0 (Nat.le_of_not_lt hi)]
    norm_num

theorem axisProb_range (pmf : BwapsProbability)
    (h : ∀ p ∈ pmf.probs, 0 ≤ p ∧ p ≤ 1) (axis : String) :
    0 ≤ axisProb pmf axis ∧ axisProb pmf axis ≤ 1 := by
  unfold axisProb
  cases hidx : pmf.outcomes.findIdx? (fun o => o == axis) with
  | none => norm_num
  | some i => exact getD_range pmf.probs h i

theorem axisProb_absent (pmf : BwapsProbability) (axis : String)
    (h : axis ∉ pmf.outcomes) : axisProb pmf axis = 0 := by
  have hidx : pmf.outcomes.findIdx? (fun o => o == axis) = none :=
    List.findIdx?_eq_none_iff.mpr
      (fun x hx => beq_eq_false_iff_ne.mpr (fun he => h (he ▸ hx)))
  simp [axisProb, hidx]

/-- An ingest response whose source pmf carries a probability of 2:
the wrapper forwards it unclamped. -/
def outOfRangeIngest : BwapsIngestResponse :=
  { eventKey := "ev_bad", homeTeamName := "H", awayTeamName := "A",
    snapshot :=
      { pmf := { outcomes := ["HOME", "DRAW", "AWAY"], probs := [2, 1/4, 1/4] },
        asOf := "2026-01-01",
        qualitySignals :=
          { liquidity := 0, volume := 0, overround := 0, sourceCount := 0 } } }

/-- C9 counterexample: `getMatchProbabilities` enforces no `[0,1]`
invariant — it returns whatever the source pmf holds, here `2`. -/
theorem getMatchProbabilities_range_counterexample :
    (getMatchProbabilities outOfRangeIngest).homeWinProb = 2 ∧
    ¬((getMatchProbabilities outOfRangeIngest).homeWinProb ≤ 1) := by
  constructor
  · rfl
  · norm_num [getMatchProbabilities, axisProb, outOfRangeIngest]

/-- C9 (amended): a requested outcome axis absent from the source
outcomes yields probability `0` unconditionally; and when every
probability of the source pmf lies in `[0,1]` the returned triple lies
in `[0,1]`. -/
theorem getMatchProbabilities_range_of_source_in_range
    (data : BwapsIngestResponse) :
    ("HOME" ∉ data.snapshot.pmf.outcomes →
      (getMatchProbabilities data).homeWinProb = 0) ∧
    ("DRAW" ∉ data.snapshot.pmf.outcomes →
      (getMatchProbabilities data).drawProb = 0) ∧
    ("AWAY" ∉ data.snapshot.pmf.outcomes →
      (getMatchProbabilities data).awayWinProb = 0) ∧
    ((∀ p ∈ data.snapshot.pmf.probs, 0 ≤ p ∧ p ≤ 1) →
      (0 ≤ (getMatchProbabilities data).homeWinProb ∧
        (getMatchProbabilities data).homeWinProb ≤ 1) ∧
      (0 ≤ (getMatchProbabilities data).drawProb ∧
        (getMatchProbabilities data).drawProb ≤ 1) ∧
      (0 ≤ (getMatchProbabilities data).awayWinProb ∧
        (getMatchProbabilities data).awayWinProb ≤ 1)) :=
  ⟨fun hh => axisProb_absent data.snapshot.pmf "HOME" hh,
   fun hh => axisProb_absent data.snapshot.pmf "DRAW" hh,
   fun hh => axisProb_absent data.snapshot.pmf "AWAY" hh,
   fun h =>
     ⟨axisProb_range data.snapshot.pmf h "HOME",
      axisProb_range data.snapshot.pmf h "DRAW",
      axisProb_range data.snapshot.pmf h "AWAY"⟩⟩

/-- An ingest response with in-range probabilities and no AWAY axis. -/
def goodIngest : BwapsIngestResponse :=
  { eventKey := "ev_good", homeTeamName := "H", awayTeamName := "A",
    snapshot :=
      { pmf := { outcomes := ["HOME", "DRAW"], probs := [1/2, 1/4] },
        asOf := "2026-01-01",
        qualitySignals :=
          { liquidity := 0, volume := 0, overround := 0, sourceCount := 0 } } }

theorem getMatchProbabilities_range_of_source_in_range_witness :
    (getMatchProbabilities goodIngest).awayWinProb = 0 ∧
    (0 ≤ (getMatchProbabilities goodIngest).homeWinProb ∧
      (getMatchProbabilities goodIngest).homeWinProb ≤ 1) ∧
    (0 ≤ (getMatchProbabilities goodIngest).drawProb ∧
      (getMatchProbabilities goodIngest).drawProb ≤ 1) ∧
    (0 ≤ (getMatchProbabilities goodIngest).awayWinProb ∧
      (getMatchProbabilities goodIngest).awayWinProb ≤ 1) :=
  let t := getMatchProbabilities_range_of_source_in_range goodIngest
  let tr := t.2.2.2 (by
    intro p hp
    simp only [goodIngest] at hp
    fin_cases hp <;> norm_num)
  ⟨t.2.2.1 (by decide), tr.1, tr.2.1, tr.2.2⟩

end Footy
